import Mathlib

/-!
Shallow embedding of the reservation conflict-detection / mutation engine
(`useReservations` hook) and the calendar interaction state machines
(`CalendarView`) of the `res_appartement` repository, together with theorems
settling the frozen claims about them.

Calendar days are modelled as integers (the spec treats dates as
calendar-day identifiers, never as instants); the ISO date strings of the
code compare chronologically exactly as the day numbers do.  Persistence
(`localStorage.setItem`) is modelled by a boolean `writeOk` saying whether
the write succeeds.  A thrown JavaScript `Error` is modelled as
`Except.error` carrying the thrown message string.
-/

namespace ResApp

structure Apartment where
  id : String
  name : String
  color : String
deriving DecidableEq

/-- The `Reservation` entity of `types/reservation.ts`: `notes` and `color`
are optional fields; `startDate`/`endDate` are calendar days. -/
structure Reservation where
  id : String
  apartment : String
  startDate : Int
  endDate : Int
  notes : Option String
  color : Option String
deriving DecidableEq

/-- `Omit<Reservation, 'id'>`: a candidate reservation payload without id. -/
structure Draft where
  apartment : String
  startDate : Int
  endDate : Int
  notes : Option String
  color : Option String
deriving DecidableEq

def toDraft (r : Reservation) : Draft :=
  ⟨r.apartment, r.startDate, r.endDate, r.notes, r.color⟩

/-- `date-fns` `isWithinInterval day interval`: inclusive on both ends. -/
def isWithinInterval (day start stop : Int) : Bool :=
  start ≤ day && day ≤ stop

/-- Modelled from the spec (§4.1): `intervalsOverlap(aStart, aEnd, bStart,
bEnd)` is true iff the closed intervals intersect, equivalently
`aStart <= bEnd && bStart <= aEnd`.  The source has no function of this
name; this is the spec-side definition the source's conflict test is
compared against. -/
def intervalsOverlap (aStart aEnd bStart bEnd : Int) : Bool :=
  aStart ≤ bEnd && bStart ≤ aEnd

/-- The three-disjunct overlap test inside `checkConflict` (the body of the
`.some` callback): new start inside existing, new end inside existing, or
existing start inside new. -/
def overlapCheck (newStart newEnd existingStart existingEnd : Int) : Bool :=
  isWithinInterval newStart existingStart existingEnd ||
  isWithinInterval newEnd existingStart existingEnd ||
  isWithinInterval existingStart newStart newEnd

/-- `checkConflict(newReservation, excludeId?)` of the hook: scan stored
reservations with a different id than `excludeId` and the same apartment,
and test interval overlap. -/
def checkConflict (reservations : List Reservation) (d : Draft)
    (excludeId : Option String) : Bool :=
  (reservations.filter
      (fun r => some r.id != excludeId && r.apartment == d.apartment)).any
    (fun r => overlapCheck d.startDate d.endDate r.startDate r.endDate)

def conflictMsg : String := "Cette période est déjà réservée pour cet appartement"

def notFoundMsg : String := "Réservation introuvable"

def saveFailMsg : String := "Impossible de sauvegarder les données"

def fallbackColor : String := "#6B7280"

/-- `saveReservations`: `localStorage.setItem` first, `setReservations`
second.  On a failing write the in-memory list is left as `current` and the
error message is thrown; on success the in-memory list becomes
`newReservations`.  Returns the resulting in-memory list and the thrown
message, if any. -/
def saveReservations (writeOk : Bool) (current newReservations : List Reservation) :
    List Reservation × Option String :=
  if writeOk then (newReservations, none) else (current, some saveFailMsg)

/-- `apartments.find(apt => apt.name === name)?.color || '#6B7280'`
(JavaScript `||` treats the empty string as falsy). -/
def resolveColor (apartments : List Apartment) (name : String) : String :=
  match apartments.find? (fun apt => apt.name == name) with
  | some apt => if apt.color == "" then fallbackColor else apt.color
  | none => fallbackColor

/-- `addReservation(reservation)`: conflict check (no exclusion), fresh id
(`Date.now().toString()`, passed in as `newId`), colour resolution, append,
save.  Result: the in-memory list afterwards, and either the created
reservation or the thrown message. -/
def addReservation (writeOk : Bool) (apartments : List Apartment)
    (reservations : List Reservation) (d : Draft) (newId : String) :
    List Reservation × Except String Reservation :=
  if checkConflict reservations d none then
    (reservations, .error conflictMsg)
  else
    let newReservation : Reservation :=
      { id := newId, apartment := d.apartment, startDate := d.startDate,
        endDate := d.endDate, notes := d.notes,
        color := some (resolveColor apartments d.apartment) }
    match saveReservations writeOk reservations (reservations ++ [newReservation]) with
    | (st, none) => (st, .ok newReservation)
    | (st, some e) => (st, .error e)

/-- `Partial<Omit<Reservation, 'id'>>`: each field optionally updated. -/
structure Updates where
  apartment : Option String
  startDate : Option Int
  endDate : Option Int
  notes : Option String
  color : Option String
deriving DecidableEq

def emptyUpdates : Updates := ⟨none, none, none, none, none⟩

/-- `{ ...existingReservation, ...updates }`. -/
def applyUpdates (r : Reservation) (u : Updates) : Reservation :=
  { id := r.id,
    apartment := u.apartment.getD r.apartment,
    startDate := u.startDate.getD r.startDate,
    endDate := u.endDate.getD r.endDate,
    notes := match u.notes with | some s => some s | none => r.notes,
    color := match u.color with | some s => some s | none => r.color }

/-- The `if (updates.apartment) { updatedReservation.color = ... }` block of
`updateReservation` (JavaScript truthiness: the empty string is falsy). -/
def refreshColor (apartments : List Apartment) (updatedApartment : Option String)
    (merged : Reservation) : Reservation :=
  match updatedApartment with
  | some aptName =>
    if aptName == "" then merged
    else { merged with color := some (resolveColor apartments aptName) }
  | none => merged

/-- `updateReservation(id, updates)`: lookup, merge, conflict check
excluding own id, colour refresh when `updates.apartment` is truthy,
in-place replacement, save. -/
def updateReservation (writeOk : Bool) (apartments : List Apartment)
    (reservations : List Reservation) (id : String) (updates : Updates) :
    List Reservation × Except String Reservation :=
  match reservations.find? (fun r => r.id == id) with
  | none => (reservations, .error notFoundMsg)
  | some existingReservation =>
    let merged := applyUpdates existingReservation updates
    if checkConflict reservations (toDraft merged) (some id) then
      (reservations, .error conflictMsg)
    else
      let updated := refreshColor apartments updates.apartment merged
      match saveReservations writeOk reservations
          (reservations.map (fun r => if r.id == id then updated else r)) with
      | (st, none) => (st, .ok updated)
      | (st, some e) => (st, .error e)

/-- `deleteReservation(id)`: filter out and save. -/
def deleteReservation (writeOk : Bool) (reservations : List Reservation)
    (id : String) : List Reservation × Except String Unit :=
  match saveReservations writeOk reservations
      (reservations.filter (fun r => r.id != id)) with
  | (st, none) => (st, .ok ())
  | (st, some e) => (st, .error e)

/-- `getReservation(id)`. -/
def getReservation (reservations : List Reservation) (id : String) :
    Option Reservation :=
  reservations.find? (fun r => r.id == id)

/-- Per-apartment no-overlap invariant of the spec (§3/§8): no two distinct
stored reservations in the same apartment have intersecting closed
intervals. -/
def Inv (l : List Reservation) : Prop :=
  ∀ a ∈ l, ∀ b ∈ l, a ≠ b → a.apartment = b.apartment →
    intervalsOverlap a.startDate a.endDate b.startDate b.endDate = false

instance (l : List Reservation) : Decidable (Inv l) := by
  unfold Inv; infer_instance

/-! ## The CalendarView interaction state (second, operative version of
`CalendarView.tsx`: the one receiving `onReservationUpdate` and
`checkConflict` as props). -/

/-- The `DragState` record used by `CalendarView` (press snapshot plus the
live proposal; `isActive` becomes true on the first pointer move). -/
structure DragState where
  reservationId : String
  originalReservation : Reservation
  newStartDate : Option Int
  newEndDate : Option Int
  isActive : Bool
deriving DecidableEq

/-- The component state of `CalendarView` relevant to the two gesture
machines: `selectedRange` (split in two fields), `isSelecting`,
`dragState`, `isDragging`. -/
structure CalState where
  selectedStart : Option Int
  selectedEnd : Option Int
  isSelecting : Bool
  dragState : Option DragState
  isDragging : Bool
deriving DecidableEq

/-- `dragState?.isActive` (undefined is falsy). -/
def dragActive : Option DragState → Bool
  | some ds => ds.isActive
  | none => false

/-- `handleDateClick(date)`: ignored during an active drag; first click
stores the anchor, second click orders the pair, emits the range and
clears the selection.  Returns the new state and the emitted
`onDateRangeSelect` range, if any. -/
def handleDateClick (s : CalState) (date : Int) : CalState × Option (Int × Int) :=
  if dragActive s.dragState then (s, none)
  else if !s.isSelecting then
    ({ s with selectedStart := some date, selectedEnd := none, isSelecting := true },
     none)
  else
    match s.selectedStart with
    | some anchor =>
      let start := if anchor ≤ date then anchor else date
      let stop := if anchor ≤ date then date else anchor
      ({ s with selectedStart := none, selectedEnd := none, isSelecting := false },
       some (start, stop))
    | none => (s, none)

/-- `handleReservationMouseDown(reservation)`: arm the drag with a snapshot
of the pressed reservation, no proposal yet, and start pointer tracking. -/
def handleReservationMouseDown (s : CalState) (r : Reservation) : CalState :=
  let ds : DragState :=
    { reservationId := r.id, originalReservation := r,
      newStartDate := none, newEndDate := none, isActive := false }
  { s with dragState := some ds, isDragging := true }

/-- `handleMouseMove(date)`: while tracking, propose `[date, date + d]`
where `d = differenceInDays(originalEnd, originalStart)`. -/
def handleMouseMove (s : CalState) (date : Int) : CalState :=
  if !s.isDragging then s
  else
    match s.dragState with
    | none => s
    | some ds =>
      let duration := ds.originalReservation.endDate - ds.originalReservation.startDate
      let ds2 : DragState :=
        { ds with newStartDate := some date, newEndDate := some (date + duration),
                  isActive := true }
      { s with dragState := some ds2 }

/-- `handleMouseUp` (and the global mouseup listener): stop pointer
tracking only; the drag state and its proposal are kept. -/
def handleMouseUp (s : CalState) : CalState :=
  { s with isDragging := false }

/-- `handleCancelDrag`: drop the drag state. -/
def handleCancelDrag (s : CalState) : CalState :=
  { s with dragState := none }

/-- `cancelSelection`: clear the two-click selection. -/
def cancelSelection (s : CalState) : CalState :=
  { s with isSelecting := false, selectedStart := none, selectedEnd := none }

/-- Outcome of a `handleSaveDrag` invocation. -/
inductive SaveDragResult
  | noop
  | conflictAlert
  | saved (r : Reservation)
  | updateError (e : String)
deriving DecidableEq

/-- `handleSaveDrag` composed with the `App`-level `handleReservationUpdate`
callback (which runs `updateReservation` and alerts on error): guard on a
present proposal, re-check conflicts against the current store excluding
the dragged id, and on a clean check update the store and clear the drag
state.  The update callback is async and `App` catches its errors, so the
drag state is cleared whether or not the store update succeeds. -/
def handleSaveDrag (writeOk : Bool) (apartments : List Apartment)
    (reservations : List Reservation) (s : CalState) :
    CalState × List Reservation × SaveDragResult :=
  match s.dragState with
  | none => (s, reservations, .noop)
  | some ds =>
    match ds.newStartDate, ds.newEndDate with
    | some nsd, some ned =>
      let test : Draft :=
        { toDraft ds.originalReservation with startDate := nsd, endDate := ned }
      if checkConflict reservations test (some ds.reservationId) then
        (s, reservations, .conflictAlert)
      else
        match updateReservation writeOk apartments reservations ds.reservationId
            ⟨none, some nsd, some ned, none, none⟩ with
        | (st, .ok r) => ({ s with dragState := none }, st, .saved r)
        | (st, .error e) => ({ s with dragState := none }, st, .updateError e)
    | _, _ => (s, reservations, .noop)

/-- Combined store + component state, for stating frame conditions. -/
structure AppState where
  reservations : List Reservation
  cal : CalState
deriving DecidableEq

/-- Discrete gesture events the calendar surface dispatches. -/
inductive Event
  | dateClick (day : Int)
  | reservationMouseDown (r : Reservation)
  | mouseMove (day : Int)
  | mouseUp
  | saveDrag
  | cancelDrag
  | cancelSel
deriving DecidableEq

/-- Observable output of one event step. -/
inductive Output
  | silent
  | rangeSelected (start stop : Int)
  | conflictAlert
  | saved (r : Reservation)
  | updateError (e : String)
deriving DecidableEq

/-- One event step of the calendar component over the combined state.  Only
`saveDrag` can reach the store; every other handler touches component state
alone. -/
def step (writeOk : Bool) (apartments : List Apartment) (st : AppState) :
    Event → AppState × Output
  | .dateClick day =>
    match handleDateClick st.cal day with
    | (c, some (a, b)) => (⟨st.reservations, c⟩, .rangeSelected a b)
    | (c, none) => (⟨st.reservations, c⟩, .silent)
  | .reservationMouseDown r =>
    (⟨st.reservations, handleReservationMouseDown st.cal r⟩, .silent)
  | .mouseMove day => (⟨st.reservations, handleMouseMove st.cal day⟩, .silent)
  | .mouseUp => (⟨st.reservations, handleMouseUp st.cal⟩, .silent)
  | .saveDrag =>
    match handleSaveDrag writeOk apartments st.reservations st.cal with
    | (c, l, .noop) => (⟨l, c⟩, .silent)
    | (c, l, .conflictAlert) => (⟨l, c⟩, .conflictAlert)
    | (c, l, .saved r) => (⟨l, c⟩, .saved r)
    | (c, l, .updateError e) => (⟨l, c⟩, .updateError e)
  | .cancelDrag => (⟨st.reservations, handleCancelDrag st.cal⟩, .silent)
  | .cancelSel => (⟨st.reservations, cancelSelection st.cal⟩, .silent)

/-! ## Helper lemmas -/

lemma intervalsOverlap_symm (aStart aEnd bStart bEnd : Int) :
    intervalsOverlap aStart aEnd bStart bEnd = intervalsOverlap bStart bEnd aStart aEnd := by
  simp only [intervalsOverlap, Bool.and_comm]

/-- Closed-interval intersection always triggers the source's three-disjunct
test (no well-formedness needed in this direction). -/
lemma overlapCheck_of_intervalsOverlap {nS nE eS eE : Int}
    (h : intervalsOverlap nS nE eS eE = true) : overlapCheck nS nE eS eE = true := by
  simp only [intervalsOverlap, Bool.and_eq_true, decide_eq_true_eq] at h
  simp only [overlapCheck, isWithinInterval, Bool.or_eq_true, Bool.and_eq_true,
    decide_eq_true_eq]
  omega

/-- On well-formed intervals the source's three-disjunct test implies
closed-interval intersection. -/
lemma intervalsOverlap_of_overlapCheck {nS nE eS eE : Int}
    (hn : nS ≤ nE) (he : eS ≤ eE) (h : overlapCheck nS nE eS eE = true) :
    intervalsOverlap nS nE eS eE = true := by
  simp only [overlapCheck, isWithinInterval, Bool.or_eq_true, Bool.and_eq_true,
    decide_eq_true_eq] at h
  simp only [intervalsOverlap, Bool.and_eq_true, decide_eq_true_eq]
  omega

lemma checkConflict_eq_true_iff (l : List Reservation) (d : Draft)
    (excl : Option String) :
    checkConflict l d excl = true ↔
      ∃ r ∈ l, some r.id ≠ excl ∧ r.apartment = d.apartment ∧
        overlapCheck d.startDate d.endDate r.startDate r.endDate = true := by
  simp only [checkConflict, List.any_eq_true, List.mem_filter, Bool.and_eq_true,
    bne_iff_ne, ne_eq, beq_iff_eq]
  constructor
  · rintro ⟨r, ⟨hr, hne, hapt⟩, hov⟩
    exact ⟨r, hr, hne, hapt, hov⟩
  · rintro ⟨r, hr, hne, hapt, hov⟩
    exact ⟨r, ⟨hr, hne, hapt⟩, hov⟩

lemma checkConflict_eq_false_iff (l : List Reservation) (d : Draft)
    (excl : Option String) :
    checkConflict l d excl = false ↔
      ∀ r ∈ l, some r.id ≠ excl → r.apartment = d.apartment →
        overlapCheck d.startDate d.endDate r.startDate r.endDate = false := by
  rw [← Bool.not_eq_true, checkConflict_eq_true_iff]
  push_neg
  constructor
  · intro h r hr hne hapt
    exact Bool.not_eq_true _ |>.mp (h r hr hne hapt)
  · intro h r hr hne hapt
    exact Bool.not_eq_true _ |>.mpr (h r hr hne hapt)

/-- `checkConflict` reads only the apartment and the two dates of the
candidate draft. -/
lemma checkConflict_congr (l : List Reservation) {d1 d2 : Draft}
    (excl : Option String) (h1 : d1.apartment = d2.apartment)
    (h2 : d1.startDate = d2.startDate) (h3 : d1.endDate = d2.endDate) :
    checkConflict l d1 excl = checkConflict l d2 excl := by
  simp only [checkConflict, h1, h2, h3]

lemma refreshColor_fields (apartments : List Apartment)
    (updatedApartment : Option String) (merged : Reservation) :
    (refreshColor apartments updatedApartment merged).id = merged.id ∧
    (refreshColor apartments updatedApartment merged).apartment = merged.apartment ∧
    (refreshColor apartments updatedApartment merged).startDate = merged.startDate ∧
    (refreshColor apartments updatedApartment merged).endDate = merged.endDate := by
  unfold refreshColor
  cases updatedApartment with
  | none => simp
  | some aptName => by_cases h : aptName == "" <;> simp [h]

/-- Appending a reservation that passed the conflict check preserves the
per-apartment no-overlap invariant. -/
lemma Inv_append_new {l : List Reservation} {d : Draft} {newR : Reservation}
    (hInv : Inv l) (hc : checkConflict l d none = false)
    (hapt : newR.apartment = d.apartment) (hs : newR.startDate = d.startDate)
    (he : newR.endDate = d.endDate) : Inv (l ++ [newR]) := by
  have hnool : ∀ x ∈ l, x.apartment = d.apartment →
      overlapCheck d.startDate d.endDate x.startDate x.endDate = false := by
    intro x hx hxa
    exact (checkConflict_eq_false_iff l d none).mp hc x hx (by simp) hxa
  intro a ha b hb hne happt
  rw [List.mem_append, List.mem_singleton] at ha hb
  rcases ha with ha | ha <;> rcases hb with hb | hb
  · exact hInv a ha b hb hne happt
  · subst hb
    by_contra hcon
    rw [Bool.not_eq_false] at hcon
    have hsymm : intervalsOverlap d.startDate d.endDate a.startDate a.endDate = true := by
      rw [intervalsOverlap_symm, ← hs, ← he]
      exact hcon
    have : overlapCheck d.startDate d.endDate a.startDate a.endDate = true :=
      overlapCheck_of_intervalsOverlap hsymm
    rw [hnool a ha (by rw [happt, hapt])] at this
    exact Bool.false_ne_true this
  · subst ha
    by_contra hcon
    rw [Bool.not_eq_false] at hcon
    rw [hs, he] at hcon
    have : overlapCheck d.startDate d.endDate b.startDate b.endDate = true :=
      overlapCheck_of_intervalsOverlap hcon
    rw [hnool b hb (by rw [← happt, hapt])] at this
    exact Bool.false_ne_true this
  · subst ha hb
    exact absurd rfl hne

/-- Replacing the entries of one id by a candidate that passed the conflict
check (excluding that id) preserves the per-apartment no-overlap
invariant.  `updated` is the stored value (colour possibly refreshed), which
agrees with the checked `merged` candidate on apartment and dates. -/
lemma Inv_map_update {l : List Reservation} {id : String}
    {merged updated : Reservation} (hInv : Inv l)
    (hc : checkConflict l (toDraft merged) (some id) = false)
    (hapt : updated.apartment = merged.apartment)
    (hs : updated.startDate = merged.startDate)
    (he : updated.endDate = merged.endDate) :
    Inv (l.map (fun r => if r.id == id then updated else r)) := by
  have hnool : ∀ x ∈ l, x.id ≠ id → x.apartment = merged.apartment →
      overlapCheck merged.startDate merged.endDate x.startDate x.endDate = false := by
    intro x hx hxid hxa
    exact (checkConflict_eq_false_iff l (toDraft merged) (some id)).mp hc x hx
      (by simpa using hxid) hxa
  intro a ha b hb hne happt
  rw [List.mem_map] at ha hb
  obtain ⟨x, hx, hxa⟩ := ha
  obtain ⟨y, hy, hyb⟩ := hb
  by_cases hxid : x.id = id
  · have hax : a = updated := by rw [← hxa]; simp [hxid]
    by_cases hyid : y.id = id
    · have hby : b = updated := by rw [← hyb]; simp [hyid]
      exact absurd (hax.trans hby.symm) hne
    · have hby : b = y := by rw [← hyb]; simp [hyid]
      have hya : y.apartment = merged.apartment := by
        rw [← hby, ← happt, hax, hapt]
      by_contra hcon
      rw [Bool.not_eq_false, hax, hby, hs, he] at hcon
      have hovc := overlapCheck_of_intervalsOverlap hcon
      rw [hnool y hy hyid hya] at hovc
      exact Bool.false_ne_true hovc
  · have hax : a = x := by rw [← hxa]; simp [hxid]
    by_cases hyid : y.id = id
    · have hby : b = updated := by rw [← hyb]; simp [hyid]
      have hxapt : x.apartment = merged.apartment := by
        rw [← hax, happt, hby, hapt]
      by_contra hcon
      rw [Bool.not_eq_false] at hcon
      have hsymm : intervalsOverlap merged.startDate merged.endDate
          x.startDate x.endDate = true := by
        rw [intervalsOverlap_symm, ← hs, ← he, ← hby, ← hax]
        exact hcon
      have hovc := overlapCheck_of_intervalsOverlap hsymm
      rw [hnool x hx hxid hxapt] at hovc
      exact Bool.false_ne_true hovc
    · have hby : b = y := by rw [← hyb]; simp [hyid]
      rw [hax, hby]
      refine hInv x hx y hy (fun h => hne (by rw [hax, hby, h])) ?_
      rw [← hax, ← hby]
      exact happt

/-- Removing reservations preserves the invariant. -/
lemma Inv_filter (p : Reservation → Bool) {l : List Reservation} (hInv : Inv l) :
    Inv (l.filter p) :=
  fun a ha b hb hne happt =>
    hInv a (List.mem_of_mem_filter ha) b (List.mem_of_mem_filter hb) hne happt

lemma saveReservations_true (cur new : List Reservation) :
    saveReservations true cur new = (new, none) := rfl

lemma saveReservations_false (cur new : List Reservation) :
    saveReservations false cur new = (cur, some saveFailMsg) := rfl

/-- What a successful `addReservation` run tells us. -/
lemma addReservation_ok {writeOk : Bool} {apts : List Apartment}
    {l : List Reservation} {d : Draft} {nid : String} {st : List Reservation}
    {r : Reservation}
    (h : addReservation writeOk apts l d nid = (st, Except.ok r)) :
    checkConflict l d none = false ∧ st = l ++ [r] ∧ r.id = nid ∧
    r.apartment = d.apartment ∧ r.startDate = d.startDate ∧
    r.endDate = d.endDate ∧ r.notes = d.notes ∧
    r.color = some (resolveColor apts d.apartment) := by
  unfold addReservation at h
  by_cases hc : checkConflict l d none
  · simp [hc] at h
  · rw [Bool.not_eq_true] at hc
    rw [hc] at h
    simp only [Bool.false_eq_true, if_false] at h
    cases writeOk with
    | false => rw [saveReservations_false] at h; simp at h
    | true =>
      rw [saveReservations_true] at h
      injection h with h1 h2
      injection h2 with h3
      subst h3
      exact ⟨hc, h1.symm, rfl, rfl, rfl, rfl, rfl, rfl⟩

/-- What a successful `updateReservation` run tells us. -/
lemma updateReservation_ok {writeOk : Bool} {apts : List Apartment}
    {l : List Reservation} {id : String} {u : Updates} {st : List Reservation}
    {r : Reservation}
    (h : updateReservation writeOk apts l id u = (st, Except.ok r)) :
    ∃ ex, l.find? (fun x => x.id == id) = some ex ∧
      checkConflict l (toDraft (applyUpdates ex u)) (some id) = false ∧
      r = refreshColor apts u.apartment (applyUpdates ex u) ∧
      st = l.map (fun x => if x.id == id then r else x) := by
  unfold updateReservation at h
  cases hfind : l.find? (fun x => x.id == id) with
  | none => rw [hfind] at h; simp at h
  | some ex =>
    rw [hfind] at h
    simp only at h
    by_cases hc : checkConflict l (toDraft (applyUpdates ex u)) (some id)
    · simp [hc] at h
    · rw [Bool.not_eq_true] at hc
      rw [hc] at h
      simp only [Bool.false_eq_true, if_false] at h
      cases writeOk with
      | false => rw [saveReservations_false] at h; simp at h
      | true =>
        rw [saveReservations_true] at h
        injection h with h1 h2
        injection h2 with h3
        subst h3
        exact ⟨ex, rfl, hc, rfl, h1.symm⟩

/-- What a successful `deleteReservation` run tells us. -/
lemma deleteReservation_ok {writeOk : Bool} {l : List Reservation} {id : String}
    {st : List Reservation} {u : Unit}
    (h : deleteReservation writeOk l id = (st, Except.ok u)) :
    st = l.filter (fun r => r.id != id) := by
  unfold deleteReservation at h
  cases writeOk with
  | false => rw [saveReservations_false] at h; simp at h
  | true =>
    rw [saveReservations_true] at h
    injection h with h1 h2
    exact h1.symm

/-! ## Fixtures used by witnesses and counterexamples (day 0 is
2025-01-01, so day 4 is 2025-01-05 and day 9 is 2025-01-10). -/

def resA : Reservation := ⟨"1", "Appartement A", 0, 4, none, none⟩

def draftB : Draft := ⟨"Appartement A", 4, 9, none, none⟩

/-! ## Claims -/

/-- Claim C1: for a candidate draft with well-formed dates over a store of
well-formed reservations, `checkConflict` is true exactly when some stored
reservation with the same apartment and an id different from the exclusion
id has a closed interval intersecting the candidate's; moreover the
closed-interval overlap test is symmetric in the two intervals and counts a
shared boundary day (one interval ending where the other starts) as a
conflict. -/
theorem C1_checkConflict_interval_overlap (l : List Reservation) (d : Draft)
    (excl : Option String) (hd : d.startDate ≤ d.endDate)
    (hl : ∀ r ∈ l, r.startDate ≤ r.endDate) :
    (checkConflict l d excl = true ↔
      ∃ r ∈ l, some r.id ≠ excl ∧ r.apartment = d.apartment ∧
        r.startDate ≤ r.endDate ∧
        intervalsOverlap d.startDate d.endDate r.startDate r.endDate = true) ∧
    (∀ aS aE bS bE : Int,
      intervalsOverlap aS aE bS bE = intervalsOverlap bS bE aS aE) ∧
    (∀ aS aE bE : Int, aS ≤ aE → aE ≤ bE → intervalsOverlap aS aE aE bE = true) := by
  refine ⟨?_, intervalsOverlap_symm, ?_⟩
  · rw [checkConflict_eq_true_iff]
    constructor
    · rintro ⟨r, hr, hne, hapt, hov⟩
      exact ⟨r, hr, hne, hapt, hl r hr,
        intervalsOverlap_of_overlapCheck hd (hl r hr) hov⟩
    · rintro ⟨r, hr, hne, hapt, hwf, hov⟩
      exact ⟨r, hr, hne, hapt, overlapCheck_of_intervalsOverlap hov⟩
  · intro aS aE bE h1 h2
    simp only [intervalsOverlap, Bool.and_eq_true, decide_eq_true_eq]
    omega

/-- Witness for C1, at the spec's touching-boundary example: stored
reservation 2025-01-01 to 2025-01-05, candidate 2025-01-05 to 2025-01-10,
same apartment, no exclusion. -/
theorem C1_witness :
    (checkConflict [resA] draftB none = true ↔
      ∃ r ∈ [resA], some r.id ≠ (none : Option String) ∧
        r.apartment = draftB.apartment ∧ r.startDate ≤ r.endDate ∧
        intervalsOverlap draftB.startDate draftB.endDate r.startDate r.endDate = true) ∧
    (∀ aS aE bS bE : Int,
      intervalsOverlap aS aE bS bE = intervalsOverlap bS bE aS aE) ∧
    (∀ aS aE bE : Int, aS ≤ aE → aE ≤ bE → intervalsOverlap aS aE aE bE = true) :=
  C1_checkConflict_interval_overlap [resA] draftB none (by decide) (by decide)

/-- Claim C2: starting from a store satisfying the per-apartment no-overlap
invariant, every successful `addReservation`, `updateReservation` or
`deleteReservation` yields a store that still satisfies it. -/
theorem C2_mutations_preserve_invariant :
    (∀ writeOk apts l d nid st r, Inv l →
        addReservation writeOk apts l d nid = (st, Except.ok r) → Inv st) ∧
    (∀ writeOk apts l id u st r, Inv l →
        updateReservation writeOk apts l id u = (st, Except.ok r) → Inv st) ∧
    (∀ writeOk l id st u, Inv l →
        deleteReservation writeOk l id = (st, Except.ok u) → Inv st) := by
  refine ⟨?_, ?_, ?_⟩
  · intro writeOk apts l d nid st r hInv heq
    obtain ⟨hc, hst, _, hapt, hs, he, _⟩ := addReservation_ok heq
    rw [hst]
    exact Inv_append_new hInv hc hapt hs he
  · intro writeOk apts l id u st r hInv heq
    obtain ⟨ex, hfind, hc, hr, hst⟩ := updateReservation_ok heq
    obtain ⟨_, hapt, hs, he⟩ := refreshColor_fields apts u.apartment (applyUpdates ex u)
    rw [hst]
    exact Inv_map_update hInv hc (hr ▸ hapt) (hr ▸ hs) (hr ▸ he)
  · intro writeOk l id st u hInv heq
    rw [deleteReservation_ok heq]
    exact Inv_filter _ hInv

/-- Witness for C2: adding a reservation to the empty store via
`addReservation` preserves the (trivially satisfied) invariant. -/
theorem C2_witness :
    Inv [Reservation.mk "9" "Appartement A" 4 9 none (some fallbackColor)] :=
  C2_mutations_preserve_invariant.1 true [] [] draftB "9"
    [Reservation.mk "9" "Appartement A" 4 9 none (some fallbackColor)]
    (Reservation.mk "9" "Appartement A" 4 9 none (some fallbackColor))
    (by decide) (by rfl)

/-- Claim C3: when the persistence write fails, `addReservation`,
`updateReservation` and `deleteReservation` each report an error and leave
the in-memory reservation collection exactly as it was. -/
theorem C3_write_failure_rolls_back :
    (∀ apts l d nid, (addReservation false apts l d nid).1 = l ∧
      ∃ e, (addReservation false apts l d nid).2 = Except.error e) ∧
    (∀ apts l id u, (updateReservation false apts l id u).1 = l ∧
      ∃ e, (updateReservation false apts l id u).2 = Except.error e) ∧
    (∀ l id, (deleteReservation false l id).1 = l ∧
      ∃ e, (deleteReservation false l id).2 = Except.error e) := by
  refine ⟨?_, ?_, ?_⟩
  · intro apts l d nid
    unfold addReservation
    by_cases hc : checkConflict l d none
    · simp [hc]
    · rw [Bool.not_eq_true] at hc
      rw [hc]
      simp [saveReservations_false]
  · intro apts l id u
    unfold updateReservation
    cases hfind : l.find? (fun x => x.id == id) with
    | none => simp
    | some ex =>
      simp only
      by_cases hc : checkConflict l (toDraft (applyUpdates ex u)) (some id)
      · simp [hc]
      · rw [Bool.not_eq_true] at hc
        rw [hc]
        simp [saveReservations_false]
  · intro l id
    unfold deleteReservation
    simp [saveReservations_false]

lemma applyUpdates_empty (r : Reservation) : applyUpdates r emptyUpdates = r := rfl

/-- A store satisfying the no-overlap invariant but holding a reservation
with reversed dates (`startDate > endDate`): the invariant alone does not
rule this out. -/
def cexStore : List Reservation :=
  [⟨"1", "Appartement A", 3, 10, none, none⟩,
   ⟨"2", "Appartement A", 5, 0, none, none⟩]

/-- Counterexample to C6 as stated: `cexStore` satisfies the per-apartment
no-overlap invariant and contains id "2", yet the empty update of "2"
raises the conflict error, because the reversed interval of "2" trips the
membership-based overlap test against reservation "1" even though the
closed intervals do not intersect. -/
theorem C6_counterexample :
    Inv cexStore ∧ (∃ r ∈ cexStore, r.id = "2") ∧
    (updateReservation true [] cexStore "2" emptyUpdates).2 =
      Except.error conflictMsg :=
  ⟨by decide, by decide, rfl⟩

/-- Claim C6 (amended: the store must also contain only well-formed
`startDate ≤ endDate` reservations): under the no-overlap invariant over a
well-formed store, an empty update of a present id finds no conflict — the
merged candidate, checked against all reservations other than the id
itself, passes — so `updateReservation` never raises the conflict error. -/
theorem C6_noop_update_never_conflicts (writeOk : Bool) (apts : List Apartment)
    (l : List Reservation) (id : String) (hInv : Inv l)
    (hwf : ∀ r ∈ l, r.startDate ≤ r.endDate) (hid : ∃ r ∈ l, r.id = id) :
    (∀ ex, l.find? (fun x => x.id == id) = some ex →
      checkConflict l (toDraft (applyUpdates ex emptyUpdates)) (some id) = false) ∧
    (updateReservation writeOk apts l id emptyUpdates).2 ≠
      Except.error conflictMsg := by
  have hmain : ∀ ex, l.find? (fun x => x.id == id) = some ex →
      checkConflict l (toDraft (applyUpdates ex emptyUpdates)) (some id) = false := by
    intro ex hfind
    rw [applyUpdates_empty]
    have hexmem : ex ∈ l := List.mem_of_find?_eq_some hfind
    have hexid : ex.id = id := by
      have := List.find?_some hfind
      simpa using this
    rw [checkConflict_eq_false_iff]
    simp only [toDraft]
    intro r hr hrne hrapt
    have hrid : r.id ≠ id := by
      intro h
      exact hrne (by rw [h])
    have hne : ex ≠ r := by
      intro h
      exact hrid (by rw [← h, hexid])
    have hno := hInv ex hexmem r hr hne hrapt.symm
    by_contra hcon
    rw [Bool.not_eq_false] at hcon
    have := intervalsOverlap_of_overlapCheck (hwf ex hexmem) (hwf r hr) hcon
    rw [hno] at this
    exact Bool.false_ne_true this
  refine ⟨hmain, ?_⟩
  obtain ⟨w, hw, hwid⟩ := hid
  cases hfind : l.find? (fun x => x.id == id) with
  | none =>
    rw [List.find?_eq_none] at hfind
    exact absurd (by simpa using hwid) (hfind w hw)
  | some ex =>
    unfold updateReservation
    rw [hfind]
    simp only
    rw [hmain ex hfind]
    simp only [Bool.false_eq_true, if_false]
    cases writeOk with
    | false =>
      rw [saveReservations_false]
      simp only [ne_eq, Except.error.injEq]
      decide
    | true =>
      rw [saveReservations_true]
      simp

/-- Witness for the amended C6 at a one-reservation store. -/
theorem C6_witness :
    (∀ ex, [resA].find? (fun x => x.id == "1") = some ex →
      checkConflict [resA] (toDraft (applyUpdates ex emptyUpdates)) (some "1") = false) ∧
    (updateReservation true [] [resA] "1" emptyUpdates).2 ≠
      Except.error conflictMsg :=
  C6_noop_update_never_conflicts true [] [resA] "1" (by decide) (by decide)
    (by decide)

/-- Same reservation as `resA` except for the id: used to show the conflict
error cannot identify the conflicting reservation. -/
def resA2 : Reservation := ⟨"2", "Appartement A", 0, 4, none, none⟩

def draftC : Draft := ⟨"Appartement A", 2, 6, none, none⟩

/-- Counterexample to C8 as stated: the same fixed error value is thrown
whether the conflicting stored reservation has id "1" or id "2", so the
raised error carries no identity of the conflicting reservation. -/
theorem C8_counterexample :
    (addReservation true [] [resA] draftC "n").2 = Except.error conflictMsg ∧
    (addReservation true [] [resA2] draftC "n").2 = Except.error conflictMsg ∧
    resA.id ≠ resA2.id :=
  ⟨rfl, rfl, by decide⟩

/-- Claim C8 (amended: whenever `addReservation` or `updateReservation`
fails because the candidate would overlap an existing reservation of the
same apartment, the thrown error is the fixed message
"Cette période est déjà réservée pour cet appartement"; it carries no
identity of the conflicting reservation, and the store is unchanged). -/
theorem C8_conflict_error_fixed_message :
    (∀ writeOk apts l d nid, checkConflict l d none = true →
      addReservation writeOk apts l d nid = (l, Except.error conflictMsg)) ∧
    (∀ writeOk apts l id u ex, l.find? (fun x => x.id == id) = some ex →
      checkConflict l (toDraft (applyUpdates ex u)) (some id) = true →
      updateReservation writeOk apts l id u = (l, Except.error conflictMsg)) := by
  constructor
  · intro writeOk apts l d nid hc
    unfold addReservation
    rw [hc]
    simp
  · intro writeOk apts l id u ex hfind hc
    unfold updateReservation
    rw [hfind]
    simp only
    rw [hc]
    simp

/-- Witness for the amended C8: a concrete conflicting create throws the
fixed message and leaves the store as it was. -/
theorem C8_witness :
    addReservation true [] [resA] draftC "7" = ([resA], Except.error conflictMsg) :=
  C8_conflict_error_fixed_message.1 true [] [resA] draftC "7" (by decide)

/-- Claim C5: pressing a stored reservation and moving the pointer to a day
puts the drag machine in `Previewing` with the duration-preserving proposal
`[day, day + (endDate - startDate)]`; releasing the pointer keeps that
proposal (no commit happens); `cancel()` returns the machine to `Idle`; the
stored reservations are untouched throughout. -/
theorem C5_drag_preview_held (writeOk : Bool) (apts : List Apartment)
    (st : AppState) (r : Reservation) (day : Int) :
    let pressed := (step writeOk apts st (.reservationMouseDown r)).1
    let moved := (step writeOk apts pressed (.mouseMove day)).1
    let released := (step writeOk apts moved .mouseUp).1
    let cancelled := (step writeOk apts released .cancelDrag).1
    moved.cal.dragState =
      some ⟨r.id, r, some day, some (day + (r.endDate - r.startDate)), true⟩ ∧
    moved.cal.isDragging = true ∧
    moved.reservations = st.reservations ∧
    (step writeOk apts moved .mouseUp).2 = Output.silent ∧
    released.cal.dragState = moved.cal.dragState ∧
    released.reservations = st.reservations ∧
    cancelled.cal.dragState = none ∧
    cancelled.reservations = st.reservations :=
  ⟨rfl, rfl, rfl, rfl, rfl, rfl, rfl, rfl⟩

/-- Claim C7: with no active drag, the selection machine takes `Idle` plus
a click to `AnchorSet(day)`; `AnchorSet(anchor)` plus a click emits the
ordered range `(min anchor day, max anchor day)` and returns to `Idle`; and
`cancelSelection` returns to `Idle` emitting nothing (its result is state
only). -/
theorem C7_selection_machine (s : CalState) (day : Int)
    (h : dragActive s.dragState = false) :
    (s.isSelecting = false →
      handleDateClick s day =
        ({ s with selectedStart := some day, selectedEnd := none,
                  isSelecting := true }, none)) ∧
    (∀ anchor, s.isSelecting = true → s.selectedStart = some anchor →
      handleDateClick s day =
        ({ s with selectedStart := none, selectedEnd := none,
                  isSelecting := false },
         some (min anchor day, max anchor day))) ∧
    cancelSelection s =
      { s with selectedStart := none, selectedEnd := none,
               isSelecting := false } := by
  refine ⟨?_, ?_, rfl⟩
  · intro hsel
    unfold handleDateClick
    rw [h, hsel]
    simp
  · intro anchor hsel hanchor
    unfold handleDateClick
    rw [h, hsel, hanchor]
    by_cases hle : anchor ≤ day <;> simp [hle, min_def, max_def]

/-- Witness for C7 at a concrete idle state and a concrete anchor state. -/
theorem C7_witness :
    (handleDateClick ⟨none, none, false, none, false⟩ 3 =
      (⟨some 3, none, true, none, false⟩, none)) ∧
    (handleDateClick ⟨some 7, none, true, none, false⟩ 3 =
      (⟨none, none, false, none, false⟩, some (min 7 3, max 7 3))) :=
  ⟨(C7_selection_machine ⟨none, none, false, none, false⟩ 3 rfl).1 rfl,
   (C7_selection_machine ⟨some 7, none, true, none, false⟩ 3 rfl).2.1 7 rfl rfl⟩

/-- Claim C9: pressing a reservation while a drag is already armed or
previewing replaces the gesture outright: the drag state is re-initialized
to the newly pressed reservation with no proposal and `isActive = false`,
pointer tracking restarts, and neither the store nor anything else is
touched. -/
theorem C9_press_replaces_gesture (writeOk : Bool) (apts : List Apartment)
    (st : AppState) (ds : DragState) (r : Reservation)
    (_h : st.cal.dragState = some ds) :
    step writeOk apts st (.reservationMouseDown r) =
      (⟨st.reservations,
        { st.cal with dragState := some ⟨r.id, r, none, none, false⟩,
                      isDragging := true }⟩, Output.silent) :=
  rfl

/-- A component state previewing a drag of reservation "1". -/
def calPreviewing : CalState :=
  ⟨none, none, false, some ⟨"1", resA, some 4, some 8, true⟩, false⟩

/-- Witness for C9: pressing `resA2` while `resA` is being previewed. -/
theorem C9_witness :
    step true [] ⟨[resA], calPreviewing⟩ (.reservationMouseDown resA2) =
      (⟨[resA],
        { calPreviewing with dragState := some ⟨resA2.id, resA2, none, none, false⟩,
                             isDragging := true }⟩, Output.silent) :=
  C9_press_replaces_gesture true [] ⟨[resA], calPreviewing⟩
    ⟨"1", resA, some 4, some 8, true⟩ resA2 rfl

/-- Claim C10: `commit()` in the armed state (drag present, no proposal
recorded yet) is a safe no-op: component state, store and everything else
are unchanged and no error or alert is produced. -/
theorem C10_commit_armed_noop (writeOk : Bool) (apts : List Apartment)
    (l : List Reservation) (s : CalState) (ds : DragState)
    (h1 : s.dragState = some ds) (h2 : ds.newStartDate = none) :
    handleSaveDrag writeOk apts l s = (s, l, SaveDragResult.noop) := by
  simp only [handleSaveDrag, h1, h2]

/-- A component state with a drag armed on reservation "1" but no proposal. -/
def calArmed : CalState :=
  ⟨none, none, false, some ⟨"1", resA, none, none, false⟩, true⟩

/-- Witness for C10 at a concrete armed state. -/
theorem C10_witness :
    handleSaveDrag true [] [resA] calArmed = (calArmed, [resA], SaveDragResult.noop) :=
  C10_commit_armed_noop true [] [resA] calArmed ⟨"1", resA, none, none, false⟩
    rfl rfl

/-- Claim C4: `commit()` from `Previewing` (drag state holding proposal
`[ps, pe]`): if the proposed range conflicts with some other reservation
(conflict check on the origin's apartment with the dragged id excluded),
no store mutation happens and the machine stays in `Previewing`; if it is
clean, the dragged reservation's stored dates become exactly the proposal
while its id, apartment, notes and colour — and every other stored
reservation — are unchanged, and the machine returns to `Idle`. -/
theorem C4_commit_from_previewing (apts : List Apartment) (l : List Reservation)
    (s : CalState) (ds : DragState) (ps pe : Int) (ex : Reservation)
    (hds : s.dragState = some ds)
    (hps : ds.newStartDate = some ps) (hpe : ds.newEndDate = some pe) :
    (checkConflict l
        ⟨ds.originalReservation.apartment, ps, pe,
         ds.originalReservation.notes, ds.originalReservation.color⟩
        (some ds.reservationId) = true →
      handleSaveDrag true apts l s = (s, l, SaveDragResult.conflictAlert)) ∧
    (checkConflict l
        ⟨ds.originalReservation.apartment, ps, pe,
         ds.originalReservation.notes, ds.originalReservation.color⟩
        (some ds.reservationId) = false →
      l.find? (fun x => x.id == ds.reservationId) = some ex →
      ex.apartment = ds.originalReservation.apartment →
      handleSaveDrag true apts l s =
        ({ s with dragState := none },
         l.map (fun x => if x.id == ds.reservationId
           then { ex with startDate := ps, endDate := pe } else x),
         SaveDragResult.saved { ex with startDate := ps, endDate := pe })) := by
  constructor
  · intro hc
    simp only [handleSaveDrag, hds, hps, hpe, toDraft]
    simp [hc]
  · intro hc hfind happt
    have hdraft : checkConflict l
        (⟨ex.apartment, ps, pe, ex.notes, ex.color⟩ : Draft)
        (some ds.reservationId) =
        checkConflict l
          (⟨ds.originalReservation.apartment, ps, pe,
            ds.originalReservation.notes, ds.originalReservation.color⟩ : Draft)
          (some ds.reservationId) :=
      checkConflict_congr l (some ds.reservationId) happt rfl rfl
    have hcc : checkConflict l
        (toDraft (applyUpdates ex ⟨none, some ps, some pe, none, none⟩))
        (some ds.reservationId) = false := by
      rw [show toDraft (applyUpdates ex ⟨none, some ps, some pe, none, none⟩) =
          (⟨ex.apartment, ps, pe, ex.notes, ex.color⟩ : Draft) from rfl]
      rw [hdraft]
      exact hc
    have hupd : updateReservation true apts l ds.reservationId
        ⟨none, some ps, some pe, none, none⟩ =
        (l.map (fun x => if x.id == ds.reservationId
           then { ex with startDate := ps, endDate := pe } else x),
         Except.ok { ex with startDate := ps, endDate := pe }) := by
      simp only [updateReservation, hfind, hcc]
      rw [show refreshColor apts none
            (applyUpdates ex ⟨none, some ps, some pe, none, none⟩) =
          { ex with startDate := ps, endDate := pe } from rfl]
      simp [saveReservations]
    simp only [handleSaveDrag, hds, hps, hpe, toDraft]
    simp [hc, hupd]

/-- A component state previewing a move of reservation "1" to [10, 14]. -/
def calP4 : CalState :=
  ⟨none, none, false, some ⟨"1", resA, some 10, some 14, true⟩, false⟩

/-- Witness for C4: committing a clean move of `resA` to [10, 14] updates
exactly its dates and returns the machine to `Idle`. -/
theorem C4_witness :
    handleSaveDrag true [] [resA] calP4 =
      ({ calP4 with dragState := none },
       [resA].map (fun x => if x.id == "1"
         then { resA with startDate := 10, endDate := 14 } else x),
       SaveDragResult.saved { resA with startDate := 10, endDate := 14 }) :=
  (C4_commit_from_previewing [] [resA] calP4 ⟨"1", resA, some 10, some 14, true⟩
    10 14 resA rfl rfl rfl).2 rfl rfl rfl

end ResApp
